import Mathlib

/-!
Verification development for the Fusion Runtime of `graphql-mesh`
(`packages/fusion/runtime/src/utils.ts` and the stitching merger).

The TypeScript source is embedded shallowly:
* `constantCase` / `compareSubgraphNames` model the `change-case` normalization
  used by `compareSubgraphNames`;
* a small-step machine (`stepStart` / `stepResume`) models the lazy
  per-subgraph executor cache of `getOnSubgraphExecute`, with explicit
  suspension at the transport-resolution point;
* `getTransport` models `createTransportExecutorFactoryGetter`;
* `executorWithHooks` and its phases model `wrapExecutorWithHooks`;
* `compareSchemas` models the schema-comparison utility;
* `fetchStitchingSchema` models the SDL-fetching closure of
  `StitchingMerger.replaceFederationSDLWithStitchingSDL`.
-/

namespace FusionRuntime

/-! ### Constant-case normalization (`change-case`'s `constantCase`)

`compareSubgraphNames` in `utils.ts` compares names via `constantCase` from
the `change-case` package: split at lower/digit→upper and upper→(upper lower)
case boundaries, split on non-alphanumeric runs, uppercase every word and
join with `_`. -/

def isNextLower : List Char → Bool
  | c :: _ => c.isLower
  | [] => false

def markBoundaries : List Char → List Char
  | [] => []
  | [c] => [c]
  | a :: b :: rest =>
    if (a.isLower || a.isDigit) && b.isUpper then
      a :: ' ' :: markBoundaries (b :: rest)
    else if a.isUpper && b.isUpper && isNextLower rest then
      a :: ' ' :: markBoundaries (b :: rest)
    else
      a :: markBoundaries (b :: rest)

def splitWordsAux : List Char → List Char → List (List Char)
  | [], cur => if cur.isEmpty then [] else [cur.reverse]
  | c :: rest, cur =>
    if c.isAlpha || c.isDigit then splitWordsAux rest (c :: cur)
    else if cur.isEmpty then splitWordsAux rest []
    else cur.reverse :: splitWordsAux rest []

def constantCase (s : String) : String :=
  let words := splitWordsAux (markBoundaries s.toList) []
  String.intercalate "_" (words.map (fun w => String.mk (w.map Char.toUpper)))

/-- `compareSubgraphNames` from `utils.ts`:
`constantCase(name1) === constantCase(name2)`. -/
def compareSubgraphNames (name1 name2 : String) : Bool :=
  constantCase name1 == constantCase name2

/-! ### The lazy per-subgraph executor cache (`getOnSubgraphExecute`)

`onSubgraphExecute(subgraphName, executionRequest)` looks the subgraph name
up in `subgraphExecutorMap` (a `Map` keyed by the exact name string).  On a
miss it installs a `lazyExecutor` placeholder and invokes it; the lazy
executor starts transport resolution (`getTransportExecutor`, which always
suspends because the factory getter is `async`) and, in its continuation,
invokes the transport factory, registers the produced executor on the
disposable stack if disposable, wraps it with the hooks, overwrites the cache
entry with the wrapped executor and forwards the pending request.

The machine below models one in-flight call as a task:
* `stepStart i` is the synchronous prologue of call `i` — cache lookup,
  placeholder installation on a miss, and invocation of whatever executor was
  found, up to the suspension inside `getTransportExecutor` (a hit on a
  wrapped executor completes immediately);
* `stepResume i ok` is the continuation after transport resolution: with
  `ok = true` the factory is invoked, the new executor is created, registered
  for disposal, wrapped and cached; with `ok = false` the initialization
  (factory resolution, factory call or disposable registration) threw, the
  error propagates to the caller and nothing else happens. -/

inductive CacheEntry
  | lazyEntry
  | wrapped (execId : Nat)
deriving DecidableEq, Repr

inductive CallOutcome
  | executed (execId : Nat)
  | failed
deriving DecidableEq, Repr

inductive TaskPhase
  | idle
  | suspended
  | taskDone (o : CallOutcome)
deriving DecidableEq, Repr

structure RuntimeState where
  cache : List (String × CacheEntry)
  factoryInvocations : Nat
  executorsCreated : Nat
  disposables : List Nat
  nextExecId : Nat
  tasks : List TaskPhase
deriving DecidableEq, Repr

def cacheLookup (c : List (String × CacheEntry)) (s : String) : Option CacheEntry :=
  (c.find? (fun p => p.1 == s)).map (fun p => p.2)

def cacheSet (c : List (String × CacheEntry)) (s : String) (e : CacheEntry) :
    List (String × CacheEntry) :=
  if (c.find? (fun p => p.1 == s)).isSome then
    c.map (fun p => if p.1 == s then (s, e) else p)
  else
    c ++ [(s, e)]

def stepStart (calls : List String) (st : RuntimeState) (i : Nat) : RuntimeState :=
  match calls[i]?, st.tasks[i]? with
  | some s, some TaskPhase.idle =>
    match cacheLookup st.cache s with
    | none =>
      { st with
          cache := cacheSet st.cache s CacheEntry.lazyEntry,
          tasks := st.tasks.set i TaskPhase.suspended }
    | some CacheEntry.lazyEntry =>
      { st with tasks := st.tasks.set i TaskPhase.suspended }
    | some (CacheEntry.wrapped e) =>
      { st with tasks := st.tasks.set i (TaskPhase.taskDone (CallOutcome.executed e)) }
  | _, _ => st

def stepResume (calls : List String) (st : RuntimeState) (i : Nat) (ok : Bool) :
    RuntimeState :=
  match calls[i]?, st.tasks[i]? with
  | some s, some TaskPhase.suspended =>
    if ok then
      let e := st.nextExecId
      { st with
          factoryInvocations := st.factoryInvocations + 1,
          executorsCreated := st.executorsCreated + 1,
          disposables := e :: st.disposables,
          nextExecId := e + 1,
          cache := cacheSet st.cache s (CacheEntry.wrapped e),
          tasks := st.tasks.set i (TaskPhase.taskDone (CallOutcome.executed e)) }
    else
      { st with tasks := st.tasks.set i (TaskPhase.taskDone CallOutcome.failed) }
  | _, _ => st

inductive SchedEvent
  | start (i : Nat)
  | resume (i : Nat) (ok : Bool)
deriving DecidableEq, Repr

def stepEvent (calls : List String) (st : RuntimeState) : SchedEvent → RuntimeState
  | SchedEvent.start i => stepStart calls st i
  | SchedEvent.resume i ok => stepResume calls st i ok

def initState (calls : List String) : RuntimeState :=
  { cache := []
    factoryInvocations := 0
    executorsCreated := 0
    disposables := []
    nextExecId := 0
    tasks := calls.map (fun _ => TaskPhase.idle) }

def runSchedule (calls : List String) (sched : List SchedEvent) : RuntimeState :=
  sched.foldl (stepEvent calls) (initState calls)

/-! ### Transport resolution (`createTransportExecutorFactoryGetter`)

`getTransport(kind)` first consults the user-supplied `transports` (either a
function from kinds to modules or a mapping); if that yields a module, the
factory is extracted from it (`default` member shape or top-level shape) and
returned as-is.  Otherwise the conventional module
`@graphql-mesh/transport-<kind>` is imported dynamically; an import failure
raises the "No transport found" error, and a successfully imported module is
checked for a present, callable `getSubgraphExecutor`. -/

inductive JSVal
  | callable (fnId : Nat)
  | nonCallable (tag : Nat)
deriving DecidableEq, Repr

structure TransportDefault where
  getSubgraphExecutor : Option JSVal
deriving DecidableEq, Repr

structure TransportModule where
  defaultMember : Option TransportDefault
  getSubgraphExecutor : Option JSVal
deriving DecidableEq, Repr

/-- `'default' in transport ? transport.default.getSubgraphExecutor
: transport.getSubgraphExecutor`. -/
def extractGetSubgraphExecutor (t : TransportModule) : Option JSVal :=
  match t.defaultMember with
  | some d => d.getSubgraphExecutor
  | none => t.getSubgraphExecutor

inductive TransportsCfg
  | registryFn (f : String → Option TransportModule)
  | mapping (m : List (String × TransportModule))
  | noTransports

def lookupTransports : TransportsCfg → String → Option TransportModule
  | TransportsCfg.registryFn f, k => f k
  | TransportsCfg.mapping m, k => ((m.find? (fun p => p.1 == k)).map (fun p => p.2))
  | TransportsCfg.noTransports, _ => none

def conventionalModuleName (kind : String) : String :=
  "@graphql-mesh/transport-" ++ kind

inductive TransportError
  | notFound (message : String)
  | misshapedMissing (message : String)
  | misshapedNotFunction (message : String)
deriving DecidableEq, Repr

def TransportError.message : TransportError → String
  | TransportError.notFound m => m
  | TransportError.misshapedMissing m => m
  | TransportError.misshapedNotFunction m => m

def notFoundMessage (kind : String) : String :=
  "No transport found for " ++ kind ++
    (". Please make sure you have installed " ++ conventionalModuleName kind ++
      " or defined the transport config in \"mesh.config.ts\"")

/-- The body of `getTransport` in `createTransportExecutorFactoryGetter`.
`importModule` stands for the module system consulted by the dynamic
`import(...)`; the returned `Option JSVal` is the (possibly `undefined`,
possibly non-callable) value the TypeScript function returns. -/
def getTransport (transports : TransportsCfg)
    (importModule : String → Except String TransportModule) (kind : String) :
    Except TransportError (Option JSVal) :=
  match lookupTransports transports kind with
  | some t => Except.ok (extractGetSubgraphExecutor t)
  | none =>
    match importModule (conventionalModuleName kind) with
    | Except.error _ => Except.error (TransportError.notFound (notFoundMessage kind))
    | Except.ok t =>
      match extractGetSubgraphExecutor t with
      | none =>
        Except.error (TransportError.misshapedMissing
          (conventionalModuleName kind ++ " module does not export \"getSubgraphExecutor\""))
      | some v =>
        match v with
        | JSVal.callable f => Except.ok (some (JSVal.callable f))
        | JSVal.nonCallable _ =>
          Except.error (TransportError.misshapedNotFunction
            (conventionalModuleName kind ++
              " module's export \"getSubgraphExecutor\" is not a function"))

/-! ### The hook pipeline (`wrapExecutorWithHooks`)

`executorWithHooks(executionRequest)` first mutates the incoming request:
`executionRequest.info = executionRequest.info || {}` and
`executionRequest.info.executionRequest = executionRequest`.  With no
registered hooks it calls the executor directly.  Otherwise the hooks run in
registration order over two mutable locals (`executionRequest`, `executor`)
that each hook can overwrite through `setExecutionRequest` / `setExecutor`;
hooks returning a done-hook append it to a list.  The (possibly replaced)
executor is then invoked once with the (possibly replaced) request; done
hooks run in order over the mutable result; if the final result is a stream
and at least one `onNext`/`onEnd` observer was collected, the stream is
wrapped by `mapAsyncIterator`, otherwise it is returned unchanged.

Requests are identified by `reqId` (a JS object reference); the cyclic
assignment `info.executionRequest = request` is modelled by storing the
request's own id. -/

structure ResolveInfo where
  executionRequest : Option Nat
  fieldName : String
deriving DecidableEq, Repr

structure ExecRequest where
  reqId : Nat
  info : Option ResolveInfo
  opName : String
deriving DecidableEq, Repr

structure ResultData where
  val : Int
deriving DecidableEq, Repr

inductive ExecResult
  | single (r : ResultData)
  | stream (items : List ResultData)
deriving DecidableEq, Repr

structure ExecutorModel where
  exId : Nat
  run : ExecRequest → ExecResult

inductive TraceEvent
  | preHookCall (hookId : Nat) (reqId : Nat) (exId : Nat)
  | executorCall (exId : Nat) (reqId : Nat)
  | doneHookCall (hookId : Nat)
  | onNextRun (obsId : Nat) (itemIdx : Nat)
  | itemYield (itemIdx : Nat)
  | onEndRun (obsId : Nat)
deriving DecidableEq, Repr

/-- An `onNext` observer: `act` returns `some r` when the observer called
`setResult r`, `none` when it did not. -/
structure OnNextObserver where
  obsId : Nat
  act : ResultData → Option ResultData

/-- The `{onNext?, onEnd?}` value an `onSubgraphExecuteDone` hook may
return; `onEnd` observers only have an identity (they are side-effecting
thunks). -/
structure DoneHookResult where
  onNext : Option OnNextObserver
  onEnd : Option Nat

/-- A done hook: `act` returns the `setResult` replacement (if the hook
called it) and the `{onNext?, onEnd?}` record (if the hook returned one). -/
structure DoneHook where
  dhId : Nat
  act : ExecResult → Option ExecResult × Option DoneHookResult

/-- The effects of one `onSubgraphExecute` pre-hook on its payload:
`newRequest` / `newExecutor` are the final values passed to
`setExecutionRequest` / `setExecutor` (or `none` when the setter was not
called), `doneHook` is the hook's return value. -/
structure HookEffects where
  newRequest : Option ExecRequest
  newExecutor : Option ExecutorModel
  doneHook : Option DoneHook

structure SubgraphHook where
  hookId : Nat
  act : ExecRequest → ExecutorModel → HookEffects

/-- `executionRequest.info = executionRequest.info || {};
executionRequest.info.executionRequest = executionRequest`. -/
def attachInfo (req : ExecRequest) : ExecRequest :=
  let i := req.info.getD { executionRequest := none, fieldName := "" }
  { req with info := some { i with executionRequest := some req.reqId } }

structure PrePhase where
  finalRequest : ExecRequest
  finalExecutor : ExecutorModel
  doneHooks : List DoneHook
  trace : List TraceEvent

/-- The pre-hook loop: each hook sees the current request/executor (recorded
in the trace) and its effects update them for the hooks after it. -/
def runPreHooks : List SubgraphHook → ExecRequest → ExecutorModel → PrePhase
  | [], req, ex => { finalRequest := req, finalExecutor := ex, doneHooks := [], trace := [] }
  | h :: rest, req, ex =>
    let eff := h.act req ex
    let req' := eff.newRequest.getD req
    let ex' := eff.newExecutor.getD ex
    let tail := runPreHooks rest req' ex'
    { finalRequest := tail.finalRequest
      finalExecutor := tail.finalExecutor
      doneHooks := eff.doneHook.toList ++ tail.doneHooks
      trace := TraceEvent.preHookCall h.hookId req.reqId ex.exId :: tail.trace }

/-- The request/executor pair visible after a list of pre-hooks has run. -/
def foldEffects : List SubgraphHook → ExecRequest → ExecutorModel →
    ExecRequest × ExecutorModel
  | [], req, ex => (req, ex)
  | h :: rest, req, ex =>
    let eff := h.act req ex
    foldEffects rest (eff.newRequest.getD req) (eff.newExecutor.getD ex)

structure DonePhase where
  finalResult : ExecResult
  results : List DoneHookResult
  trace : List TraceEvent

/-- The done-hook loop over the mutable `currentResult`. -/
def runDoneHooks : List DoneHook → ExecResult → DonePhase
  | [], r => { finalResult := r, results := [], trace := [] }
  | d :: rest, r =>
    let (newR, res) := d.act r
    let tail := runDoneHooks rest (newR.getD r)
    { finalResult := tail.finalResult
      results := res.toList ++ tail.results
      trace := TraceEvent.doneHookCall d.dhId :: tail.trace }

/-- `onNextHooks` / `onEndHooks` collection, in registration order. -/
def collectObservers : List DoneHookResult → List OnNextObserver × List Nat
  | [] => ([], [])
  | r :: rest =>
    let (obs, ends) := collectObservers rest
    (r.onNext.toList ++ obs, r.onEnd.toList ++ ends)

/-- One stream item through all `onNext` observers (each may rewrite it via
`setResult`), in registration order. -/
def applyOnNext : List OnNextObserver → Nat → ResultData → ResultData × List TraceEvent
  | [], _, r => (r, [])
  | o :: rest, idx, r =>
    let tail := applyOnNext rest idx ((o.act r).getD r)
    (tail.1, TraceEvent.onNextRun o.obsId idx :: tail.2)

/-- The wrapped stream (`mapAsyncIterator`): every yielded item runs through
the `onNext` observers before being yielded; at the end of the stream the
`onEnd` observers run once, in registration order. -/
def mapStream (obs : List OnNextObserver) (ends : List Nat) :
    List ResultData → Nat → List ResultData × List TraceEvent
  | [], _ => ([], ends.map TraceEvent.onEndRun)
  | x :: xs, idx =>
    let hd := applyOnNext obs idx x
    let tail := mapStream obs ends xs (idx + 1)
    (hd.1 :: tail.1, hd.2 ++ (TraceEvent.itemYield idx :: tail.2))

/-- The stream-wrapping decision at the end of `executorWithHooks`: no done
results, or no collected observers, pass the stream through unchanged;
otherwise the stream is wrapped. -/
def postProcessStream (dResults : List DoneHookResult) (items : List ResultData) :
    List ResultData × List TraceEvent :=
  if dResults.isEmpty then (items, [])
  else
    if (collectObservers dResults).1.isEmpty && (collectObservers dResults).2.isEmpty then
      (items, [])
    else
      mapStream (collectObservers dResults).1 (collectObservers dResults).2 items 0

structure PipelineOutput where
  result : ExecResult
  trace : List TraceEvent
  finalIncomingRequest : ExecRequest

/-- The whole `executorWithHooks` body. -/
def executorWithHooks (hooks : List SubgraphHook) (executor : ExecutorModel)
    (executionRequest : ExecRequest) : PipelineOutput :=
  let req := attachInfo executionRequest
  if hooks.isEmpty then
    { result := executor.run req
      trace := [TraceEvent.executorCall executor.exId req.reqId]
      finalIncomingRequest := req }
  else
    let pre := runPreHooks hooks req executor
    let r0 := pre.finalExecutor.run pre.finalRequest
    let trExec := [TraceEvent.executorCall pre.finalExecutor.exId pre.finalRequest.reqId]
    if pre.doneHooks.isEmpty then
      { result := r0, trace := pre.trace ++ trExec, finalIncomingRequest := req }
    else
      let dp := runDoneHooks pre.doneHooks r0
      match dp.finalResult with
      | ExecResult.single r =>
        { result := ExecResult.single r
          trace := pre.trace ++ trExec ++ dp.trace
          finalIncomingRequest := req }
      | ExecResult.stream items =>
        { result := ExecResult.stream (postProcessStream dp.results items).1
          trace := pre.trace ++ trExec ++ dp.trace ++ (postProcessStream dp.results items).2
          finalIncomingRequest := req }

/-- The rewrite an item undergoes through the `onNext` chain. -/
def rewriteChain (obs : List OnNextObserver) (r : ResultData) : ResultData :=
  obs.foldl (fun r o => (o.act r).getD r) r

/-! Concrete scenario data: an upstream executor, a fake replacement
executor installed by a pre-hook through `setExecutor`, a request, and a
subscription scenario whose done hook observes the stream. -/

def upstreamExecutor : ExecutorModel :=
  { exId := 1, run := fun _ => ExecResult.single { val := 1 } }

def fakeExecutor : ExecutorModel :=
  { exId := 2, run := fun _ => ExecResult.single { val := 42 } }

/-- A pre-hook that calls `setExecutor(fake)` and nothing else. -/
def swapExecutorHook : SubgraphHook :=
  { hookId := 10
    act := fun _ _ => { newRequest := none, newExecutor := some fakeExecutor, doneHook := none } }

def sampleRequest : ExecRequest :=
  { reqId := 5, info := none, opName := "q" }

/-- A done-hook result observing the stream: `onNext` multiplies each item
by 10 via `setResult`, `onEnd` is observer 200. -/
def timesTenDoneResult : DoneHookResult :=
  { onNext := some { obsId := 100, act := fun r => some { val := r.val * 10 } }
    onEnd := some 200 }

/-- A done hook returning `timesTenDoneResult` without touching the result. -/
def timesTenDoneHook : DoneHook :=
  { dhId := 20, act := fun _ => (none, some timesTenDoneResult) }

/-- A pre-hook that only registers `timesTenDoneHook`. -/
def observeStreamHook : SubgraphHook :=
  { hookId := 11
    act := fun _ _ => { newRequest := none, newExecutor := none, doneHook := some timesTenDoneHook } }

/-- An executor producing the subscription stream `1, 2, 3`. -/
def streamExecutor : ExecutorModel :=
  { exId := 3, run := fun _ => ExecResult.stream [{ val := 1 }, { val := 2 }, { val := 3 }] }

def isExecutorCallEvent : TraceEvent → Bool
  | TraceEvent.executorCall _ _ => true
  | _ => false

/-! ### `compareSchemas`

`compareSchemas(a, b)` turns each argument into a string — a string input is
used as-is, a document node goes through `print`, anything else through
`printSchemaWithDirectives` — and compares the strings.  A `DocumentNode` is
an AST: its `loc`/source text (where the original whitespace lives) does not
take part in printing; a `GraphQLSchema` prints its directive and type
definitions, not its internal identity. -/

structure DocumentNode where
  definitions : List String
  sourceText : String
deriving DecidableEq, Repr

structure GraphQLSchemaModel where
  directiveDefs : List String
  typeDefs : List String
  internalId : Nat
deriving DecidableEq, Repr

/-- `print` from `graphql`: the document's definitions, canonically joined;
the source text (`loc`) never takes part. -/
def printDocument (d : DocumentNode) : String :=
  String.intercalate "\n\n" d.definitions

/-- `printSchemaWithDirectives` from `@graphql-tools/utils`: directive
definitions included, internal identity ignored. -/
def printSchemaWithDirectives (s : GraphQLSchemaModel) : String :=
  String.intercalate "\n\n" (s.directiveDefs ++ s.typeDefs)

inductive SchemaInput
  | sdlString (s : String)
  | document (d : DocumentNode)
  | schemaVal (s : GraphQLSchemaModel)
deriving DecidableEq, Repr

/-- The `aStr`/`bStr` computation inside `compareSchemas`: strings pass
through, documents are printed, schemas are printed with directives. -/
def toComparableString : SchemaInput → String
  | SchemaInput.sdlString s => s
  | SchemaInput.document d => printDocument d
  | SchemaInput.schemaVal s => printSchemaWithDirectives s

/-- `compareSchemas` from `utils.ts`. -/
def compareSchemas (a b : SchemaInput) : Bool :=
  toComparableString a == toComparableString b

/-- The canonical printed SDL form of an input, as the spec describes it:
the printer's canonical output with directives included (an SDL string input
is already in its printed form). -/
def canonicalPrintedSDL : SchemaInput → String
  | SchemaInput.sdlString s => s
  | SchemaInput.document d => printDocument d
  | SchemaInput.schemaVal s => printSchemaWithDirectives s

/-! ### The stitching merger's SDL fetch
(`StitchingMerger.replaceFederationSDLWithStitchingSDL`)

For a federated subgraph, the merger obtains the federation SDL: from the
schema's `link` directive metadata when present, otherwise by executing
`{ _service { sdl } }` against the subgraph.  A result with a non-empty
`errors` list aborts with
`AggregateError(errors, "Failed on fetching Federated SDL for <name>")`;
otherwise the SDL is translated to stitching SDL
(`federationToStitchingSDL`) and the schema is rebuilt from it. -/

structure SdlExecutionResult where
  errors : List String
  serviceSdl : Option String
deriving DecidableEq, Repr

structure AggregateErrorModel where
  errors : List String
  message : String
deriving DecidableEq, Repr

inductive MergeError
  | aggregate (e : AggregateErrorModel)
  | missingServiceData
deriving DecidableEq, Repr

def sdlFetchFailureMessage (name : String) : String :=
  "Failed on fetching Federated SDL for " ++ name

/-- The body of the `getWithSet` closure in
`replaceFederationSDLWithStitchingSDL`, up to the stitching SDL the new
schema is built from.  `fedToStitching` stands for the external
`federationToStitchingSDL` translator. -/
def fetchStitchingSchema (name : String) (hasLinkDirective : Bool)
    (printedSchemaSdl : String) (sdlQueryResult : SdlExecutionResult)
    (fedToStitching : String → String) : Except MergeError String :=
  if hasLinkDirective then
    Except.ok (fedToStitching printedSchemaSdl)
  else if sdlQueryResult.errors.length ≠ 0 then
    Except.error (MergeError.aggregate
      { errors := sdlQueryResult.errors, message := sdlFetchFailureMessage name })
  else
    match sdlQueryResult.serviceSdl with
    | some sdl => Except.ok (fedToStitching sdl)
    | none => Except.error MergeError.missingServiceData

/-! ## Theorems -/

theorem runPreHooks_final (hooks : List SubgraphHook) (req : ExecRequest)
    (ex : ExecutorModel) :
    (runPreHooks hooks req ex).finalRequest = (foldEffects hooks req ex).1 ∧
    (runPreHooks hooks req ex).finalExecutor = (foldEffects hooks req ex).2 := by
  induction hooks generalizing req ex with
  | nil => exact ⟨rfl, rfl⟩
  | cons h rest ih =>
    simpa [runPreHooks, foldEffects] using ih _ _

theorem runPreHooks_trace_length (hooks : List SubgraphHook) (req : ExecRequest)
    (ex : ExecutorModel) :
    (runPreHooks hooks req ex).trace.length = hooks.length := by
  induction hooks generalizing req ex with
  | nil => rfl
  | cons h rest ih => simp [runPreHooks, ih]

theorem runPreHooks_trace_getElem (hooks : List SubgraphHook) (req : ExecRequest)
    (ex : ExecutorModel) :
    ∀ i h, hooks[i]? = some h →
      (runPreHooks hooks req ex).trace[i]?
        = some (TraceEvent.preHookCall h.hookId
            (foldEffects (hooks.take i) req ex).1.reqId
            (foldEffects (hooks.take i) req ex).2.exId) := by
  induction hooks generalizing req ex with
  | nil =>
    intro i h hi
    simp at hi
  | cons hd rest ih =>
    intro i h hi
    cases i with
    | zero =>
      simp at hi
      subst hi
      simp [runPreHooks, foldEffects]
    | succ n =>
      simp at hi
      have htail := ih ((hd.act req ex).newRequest.getD req)
        ((hd.act req ex).newExecutor.getD ex) n h hi
      simpa [runPreHooks, foldEffects] using htail

theorem runPreHooks_trace_no_executor_call (hooks : List SubgraphHook)
    (req : ExecRequest) (ex : ExecutorModel) :
    ∀ e ∈ (runPreHooks hooks req ex).trace, isExecutorCallEvent e = false := by
  induction hooks generalizing req ex with
  | nil =>
    intro e he
    simp [runPreHooks] at he
  | cons h rest ih =>
    intro e he
    simp [runPreHooks] at he
    rcases he with he | he
    · subst he; rfl
    · exact ih _ _ e he

theorem runDoneHooks_trace_no_executor_call (dhs : List DoneHook) (r : ExecResult) :
    ∀ e ∈ (runDoneHooks dhs r).trace, isExecutorCallEvent e = false := by
  induction dhs generalizing r with
  | nil =>
    intro e he
    simp [runDoneHooks] at he
  | cons d rest ih =>
    intro e he
    simp [runDoneHooks] at he
    rcases he with he | he
    · subst he; rfl
    · exact ih _ e he

theorem applyOnNext_spec (obs : List OnNextObserver) (idx : Nat) (r : ResultData) :
    applyOnNext obs idx r
      = (rewriteChain obs r, obs.map (fun o => TraceEvent.onNextRun o.obsId idx)) := by
  induction obs generalizing r with
  | nil => rfl
  | cons o rest ih =>
    simp [applyOnNext, rewriteChain, List.foldl_cons, ih]

theorem mapStream_items (obs : List OnNextObserver) (ends : List Nat)
    (items : List ResultData) (k : Nat) :
    (mapStream obs ends items k).1 = items.map (rewriteChain obs) := by
  induction items generalizing k with
  | nil => rfl
  | cons x xs ih => simp [mapStream, applyOnNext_spec, ih]

theorem mapStream_trace (obs : List OnNextObserver) (ends : List Nat)
    (items : List ResultData) (k : Nat) :
    (mapStream obs ends items k).2
      = ((List.range' k items.length).map (fun j =>
          obs.map (fun o => TraceEvent.onNextRun o.obsId j) ++
            [TraceEvent.itemYield j])).flatten
        ++ ends.map TraceEvent.onEndRun := by
  induction items generalizing k with
  | nil => simp [mapStream]
  | cons x xs ih =>
    simp only [mapStream, applyOnNext_spec, List.length_cons, List.range'_succ,
      List.map_cons, List.flatten_cons, ih (k + 1)]
    simp [List.append_assoc]

theorem mapStream_trace_no_executor_call (obs : List OnNextObserver) (ends : List Nat)
    (items : List ResultData) (k : Nat) :
    ∀ e ∈ (mapStream obs ends items k).2, isExecutorCallEvent e = false := by
  induction items generalizing k with
  | nil =>
    intro e he
    simp [mapStream] at he
    rcases he with ⟨n, _, rfl⟩
    rfl
  | cons x xs ih =>
    intro e he
    simp [mapStream, applyOnNext_spec] at he
    rcases he with ⟨o, _, rfl⟩ | rfl | he
    · rfl
    · rfl
    · exact ih (k + 1) e he

theorem postProcessStream_trace_no_executor_call (dResults : List DoneHookResult)
    (items : List ResultData) :
    ∀ e ∈ (postProcessStream dResults items).2, isExecutorCallEvent e = false := by
  intro e he
  unfold postProcessStream at he
  split at he
  · simp at he
  · split at he
    · simp at he
    · exact mapStream_trace_no_executor_call _ _ _ _ e he

/-- C1: the claim says that across any interleaving of N ≥ 2 concurrent
first-calls to `onSubgraphExecute(s, …)`, each suspending at the
transport-resolution point, the transport factory runs exactly once.  On the
code this fails: each concurrent first-call finds (or installs) the lazy
placeholder and invoking the placeholder starts its own initialization, so
with two first-calls to subgraph `"a"` that both suspend before either
continuation runs, the factory is invoked twice and two executors are
created (both registered for disposal), even though only one executor ends
up cached (the second overwrites the first). -/
theorem c1_concurrent_first_calls_invoke_factory_twice :
    (runSchedule ["a", "a"]
      [SchedEvent.start 0, SchedEvent.start 1,
       SchedEvent.resume 0 true, SchedEvent.resume 1 true]).factoryInvocations = 2 ∧
    (runSchedule ["a", "a"]
      [SchedEvent.start 0, SchedEvent.start 1,
       SchedEvent.resume 0 true, SchedEvent.resume 1 true]).executorsCreated = 2 ∧
    (runSchedule ["a", "a"]
      [SchedEvent.start 0, SchedEvent.start 1,
       SchedEvent.resume 0 true, SchedEvent.resume 1 true]).cache
      = [("a", CacheEntry.wrapped 1)] ∧
    (runSchedule ["a", "a"]
      [SchedEvent.start 0, SchedEvent.start 1,
       SchedEvent.resume 0 true, SchedEvent.resume 1 true]).disposables = [1, 0] := by
  decide

/-- C2: if first-time initialization of a subgraph's executor fails, the
failure propagates to the caller of the failing request (the task ends in
the `failed` outcome), the cache is left unchanged — the lazy placeholder is
still installed for the subgraph and no factory invocation was recorded —
and any subsequent call for the same subgraph starts initialization again
(its prologue ends suspended at the transport-resolution point instead of
using a cached executor). -/
theorem c2_failed_init_propagates_and_retries
    (calls : List String) (st : RuntimeState) (i : Nat) (s : String)
    (hc : calls[i]? = some s)
    (hp : st.tasks[i]? = some TaskPhase.suspended)
    (hl : cacheLookup st.cache s = some CacheEntry.lazyEntry) :
    (stepResume calls st i false).cache = st.cache ∧
    (stepResume calls st i false).tasks[i]?
      = some (TaskPhase.taskDone CallOutcome.failed) ∧
    (stepResume calls st i false).factoryInvocations = st.factoryInvocations ∧
    cacheLookup (stepResume calls st i false).cache s = some CacheEntry.lazyEntry ∧
    (∀ j, (stepResume calls st i false).tasks[j]? = some TaskPhase.idle →
      calls[j]? = some s →
      (stepStart calls (stepResume calls st i false) j).tasks[j]?
        = some TaskPhase.suspended) := by
  have hi : i < st.tasks.length := by
    exact (List.getElem?_eq_some.mp hp).choose
  have hst : stepResume calls st i false
      = { st with tasks := st.tasks.set i (TaskPhase.taskDone CallOutcome.failed) } := by
    simp [stepResume, hc, hp]
  rw [hst]
  refine ⟨rfl, ?_, rfl, hl, ?_⟩
  · exact List.getElem?_set_self hi
  · intro j hj hcj
    simp only at hj
    have hjget : (st.tasks.set i (TaskPhase.taskDone CallOutcome.failed))[j]?
        = some TaskPhase.idle := hj
    have hstart : stepStart calls
        { st with tasks := st.tasks.set i (TaskPhase.taskDone CallOutcome.failed) } j
        = { st with tasks :=
              ((st.tasks.set i (TaskPhase.taskDone CallOutcome.failed)).set j
                TaskPhase.suspended) } := by
      simp only [stepStart]
      rw [hcj, hjget]
      simp [hl]
    rw [hstart]
    have hjlen : j < (st.tasks.set i (TaskPhase.taskDone CallOutcome.failed)).length := by
      exact (List.getElem?_eq_some.mp hjget).choose
    exact List.getElem?_set_self hjlen

/-- C2 witness: after `onSubgraphExecute("a", …)` has started and suspended
(schedule `[start 0]` over calls `["a", "a"]`), a failing resume leaves the
cache holding the lazy placeholder, marks the call failed, and lets the
second call retry initialization. -/
theorem c2_failed_init_propagates_and_retries_witness :
    (stepResume ["a", "a"] (runSchedule ["a", "a"] [SchedEvent.start 0]) 0 false).cache
      = (runSchedule ["a", "a"] [SchedEvent.start 0]).cache ∧
    (stepResume ["a", "a"] (runSchedule ["a", "a"] [SchedEvent.start 0]) 0 false).tasks[0]?
      = some (TaskPhase.taskDone CallOutcome.failed) ∧
    (stepResume ["a", "a"] (runSchedule ["a", "a"] [SchedEvent.start 0]) 0
        false).factoryInvocations
      = (runSchedule ["a", "a"] [SchedEvent.start 0]).factoryInvocations ∧
    cacheLookup (stepResume ["a", "a"] (runSchedule ["a", "a"] [SchedEvent.start 0]) 0
        false).cache "a"
      = some CacheEntry.lazyEntry ∧
    (∀ j, (stepResume ["a", "a"] (runSchedule ["a", "a"] [SchedEvent.start 0]) 0
          false).tasks[j]? = some TaskPhase.idle →
      ["a", "a"][j]? = some "a" →
      (stepStart ["a", "a"]
          (stepResume ["a", "a"] (runSchedule ["a", "a"] [SchedEvent.start 0]) 0 false)
          j).tasks[j]?
        = some TaskPhase.suspended) :=
  c2_failed_init_propagates_and_retries ["a", "a"]
    (runSchedule ["a", "a"] [SchedEvent.start 0]) 0 "a" rfl (by decide) (by decide)

/-- C5: `compareSchemas(a, b)` returns true exactly when the canonical
printed SDL forms of the two inputs coincide; in particular document inputs
that differ only in their source text (whitespace) but have the same
definitions compare equal, and schema inputs with the same directive and
type definitions compare equal regardless of their identity. -/
theorem c5_compareSchemas_canonical_printed :
    (∀ a b : SchemaInput,
      compareSchemas a b = true ↔ canonicalPrintedSDL a = canonicalPrintedSDL b) ∧
    (∀ d1 d2 : DocumentNode, d1.definitions = d2.definitions →
      compareSchemas (SchemaInput.document d1) (SchemaInput.document d2) = true) ∧
    (∀ s1 s2 : GraphQLSchemaModel, s1.directiveDefs = s2.directiveDefs →
      s1.typeDefs = s2.typeDefs →
      compareSchemas (SchemaInput.schemaVal s1) (SchemaInput.schemaVal s2) = true) := by
  have hcanon : ∀ a : SchemaInput, toComparableString a = canonicalPrintedSDL a := by
    intro a
    cases a <;> rfl
  refine ⟨?_, ?_, ?_⟩
  · intro a b
    rw [compareSchemas, hcanon, hcanon]
    exact beq_iff_eq
  · intro d1 d2 hdef
    simp [compareSchemas, toComparableString, printDocument, hdef]
  · intro s1 s2 hdir htype
    simp [compareSchemas, toComparableString, printSchemaWithDirectives, hdir, htype]

/-- C5 witness: two documents with the same definitions but different source
whitespace compare equal. -/
theorem c5_compareSchemas_canonical_printed_witness :
    compareSchemas
      (SchemaInput.document
        { definitions := ["type Query { x: Int }"], sourceText := "type   Query  compact  source" })
      (SchemaInput.document
        { definitions := ["type Query { x: Int }"], sourceText := "type Query  pretty  source" })
      = true :=
  c5_compareSchemas_canonical_printed.2.1
    { definitions := ["type Query { x: Int }"], sourceText := "type   Query  compact  source" }
    { definitions := ["type Query { x: Int }"], sourceText := "type Query  pretty  source" }
    rfl

/-- C6 counterexample: `"MyApi"` and `"my_api"` are equal under constant
case (`compareSubgraphNames` returns true), yet running one completed call
for each name leaves two distinct entries in `onSubgraphExecute`'s executor
cache and two factory invocations — the runtime's executor cache keys are
the exact name strings, not their constant-case forms. -/
theorem c6_constant_case_equal_names_distinct_cache_keys :
    compareSubgraphNames "MyApi" "my_api" = true ∧
    (runSchedule ["MyApi", "my_api"]
      [SchedEvent.start 0, SchedEvent.resume 0 true,
       SchedEvent.start 1, SchedEvent.resume 1 true]).cache
      = [("MyApi", CacheEntry.wrapped 0), ("my_api", CacheEntry.wrapped 1)] ∧
    (runSchedule ["MyApi", "my_api"]
      [SchedEvent.start 0, SchedEvent.resume 0 true,
       SchedEvent.start 1, SchedEvent.resume 1 true]).factoryInvocations = 2 := by
  decide

/-- C6 (amended): `compareSubgraphNames(n1, n2)` returns true exactly when
`constantCase(n1) = constantCase(n2)` — so `"MyApi"`, `"my_api"` and
`"MY-API"` all compare equal — but the executor cache of
`onSubgraphExecute` is keyed by the exact name string: two different
spellings remain two distinct keys in it. -/
theorem c6_amended_constant_case_compare_exact_cache :
    (∀ n1 n2 : String,
      compareSubgraphNames n1 n2 = (constantCase n1 == constantCase n2)) ∧
    constantCase "MyApi" = "MY_API" ∧
    constantCase "my_api" = "MY_API" ∧
    constantCase "MY-API" = "MY_API" ∧
    (∀ (n1 n2 : String) (e1 e2 : CacheEntry), n1 ≠ n2 →
      cacheLookup (cacheSet (cacheSet [] n1 e1) n2 e2) n1 = some e1 ∧
      cacheLookup (cacheSet (cacheSet [] n1 e1) n2 e2) n2 = some e2) := by
  refine ⟨fun n1 n2 => rfl, by decide, by decide, by decide, ?_⟩
  intro n1 n2 e1 e2 hne
  have h21 : (n2 == n1) = false := by
    simp [beq_eq_false_iff_ne]
    exact fun h => hne h.symm
  have h12 : (n1 == n2) = false := by
    simp [beq_eq_false_iff_ne]
    exact hne
  constructor
  · simp [cacheSet, cacheLookup, List.find?, h12, h21]
  · simp [cacheSet, cacheLookup, List.find?, h12, h21]

/-- C6 amended witness: instantiated at `"MyApi"` and `"my_api"`. -/
theorem c6_amended_constant_case_compare_exact_cache_witness :
    cacheLookup
      (cacheSet (cacheSet [] "MyApi" CacheEntry.lazyEntry) "my_api"
        (CacheEntry.wrapped 0)) "MyApi" = some CacheEntry.lazyEntry ∧
    cacheLookup
      (cacheSet (cacheSet [] "MyApi" CacheEntry.lazyEntry) "my_api"
        (CacheEntry.wrapped 0)) "my_api" = some (CacheEntry.wrapped 0) :=
  c6_amended_constant_case_compare_exact_cache.2.2.2.2 "MyApi" "my_api"
    CacheEntry.lazyEntry (CacheEntry.wrapped 0) (by decide)

/-- C7: when the inline configuration does not resolve the transport kind
and the dynamic import of the conventional module fails, `getTransport`
raises the "No transport found" error, whose message contains both the kind
and the conventional module name `@graphql-mesh/transport-<kind>`. -/
theorem c7_transport_not_found_names_kind_and_module
    (transports : TransportsCfg)
    (importModule : String → Except String TransportModule) (kind : String)
    (hinline : lookupTransports transports kind = none)
    (himport : ∃ e, importModule (conventionalModuleName kind) = Except.error e) :
    getTransport transports importModule kind
      = Except.error (TransportError.notFound (notFoundMessage kind)) ∧
    (∃ p q, notFoundMessage kind = p ++ kind ++ q) ∧
    (∃ p q, notFoundMessage kind = p ++ conventionalModuleName kind ++ q) := by
  obtain ⟨e, he⟩ := himport
  refine ⟨by simp [getTransport, hinline, he], ?_, ?_⟩
  · exact ⟨"No transport found for ",
      ". Please make sure you have installed " ++ conventionalModuleName kind ++
        " or defined the transport config in \"mesh.config.ts\"", rfl⟩
  · refine ⟨"No transport found for " ++ kind ++ ". Please make sure you have installed ",
      " or defined the transport config in \"mesh.config.ts\"", ?_⟩
    simp only [notFoundMessage, String.append_assoc]

/-- C7 witness: no inline transports and a failing import for kind
`"ghost"`. -/
theorem c7_transport_not_found_names_kind_and_module_witness :
    (getTransport TransportsCfg.noTransports (fun _ => Except.error "module not found") "ghost"
      = Except.error (TransportError.notFound (notFoundMessage "ghost")) ∧
    (∃ p q, notFoundMessage "ghost" = p ++ "ghost" ++ q) ∧
    (∃ p q, notFoundMessage "ghost" = p ++ conventionalModuleName "ghost" ++ q)) :=
  c7_transport_not_found_names_kind_and_module TransportsCfg.noTransports
    (fun _ => Except.error "module not found") "ghost" rfl ⟨"module not found", rfl⟩

/-- C8 counterexample: an inline mapping supplies for kind `"x"` a module
that exposes no `getSubgraphExecutor` at all; the claim requires a
"transport misshaped" error, but `getTransport` returns the extracted
(`undefined`) value without raising — the misshaped checks run only on the
dynamic-import path. -/
theorem c8_inline_misshaped_returned_not_raised :
    getTransport
      (TransportsCfg.mapping
        [("x", { defaultMember := none, getSubgraphExecutor := none })])
      (fun _ => Except.error "no module") "x"
      = Except.ok none := by
  rfl

/-- C8 (amended): the misshaped checks apply only to dynamically discovered
modules: a module found through the inline registry or mapping is returned
as-is (its possibly missing or non-callable `getSubgraphExecutor` included),
while a dynamically imported module with a missing `getSubgraphExecutor`
(under either shape) raises the missing-export error and one with a
non-callable value there raises the not-a-function error. -/
theorem c8_amended_misshaped_check_only_dynamic :
    (∀ (transports : TransportsCfg)
      (importModule : String → Except String TransportModule)
      (kind : String) (t : TransportModule),
      lookupTransports transports kind = some t →
      getTransport transports importModule kind
        = Except.ok (extractGetSubgraphExecutor t)) ∧
    (∀ (transports : TransportsCfg)
      (importModule : String → Except String TransportModule)
      (kind : String) (t : TransportModule),
      lookupTransports transports kind = none →
      importModule (conventionalModuleName kind) = Except.ok t →
      extractGetSubgraphExecutor t = none →
      ∃ m, getTransport transports importModule kind
        = Except.error (TransportError.misshapedMissing m)) ∧
    (∀ (transports : TransportsCfg)
      (importModule : String → Except String TransportModule)
      (kind : String) (t : TransportModule) (tag : Nat),
      lookupTransports transports kind = none →
      importModule (conventionalModuleName kind) = Except.ok t →
      extractGetSubgraphExecutor t = some (JSVal.nonCallable tag) →
      ∃ m, getTransport transports importModule kind
        = Except.error (TransportError.misshapedNotFunction m)) := by
  refine ⟨?_, ?_, ?_⟩
  · intro transports importModule kind t hfound
    simp [getTransport, hfound]
  · intro transports importModule kind t hnone himp hmissing
    refine ⟨conventionalModuleName kind ++ " module does not export \"getSubgraphExecutor\"", ?_⟩
    simp [getTransport, hnone, himp, hmissing]
  · intro transports importModule kind t tag hnone himp hval
    refine ⟨conventionalModuleName kind ++
      " module's export \"getSubgraphExecutor\" is not a function", ?_⟩
    simp [getTransport, hnone, himp, hval]

/-- C8 amended witness: an inline-mapped misshaped module is returned as-is;
a dynamically imported module with a missing `getSubgraphExecutor` raises;
one with a non-callable value raises. -/
theorem c8_amended_misshaped_check_only_dynamic_witness :
    (getTransport
        (TransportsCfg.mapping
          [("y", { defaultMember := none, getSubgraphExecutor := some (JSVal.nonCallable 7) })])
        (fun _ => Except.error "no module") "y"
      = Except.ok (extractGetSubgraphExecutor
          { defaultMember := none, getSubgraphExecutor := some (JSVal.nonCallable 7) })) ∧
    (∃ m, getTransport TransportsCfg.noTransports
        (fun _ => Except.ok { defaultMember := none, getSubgraphExecutor := none }) "k1"
      = Except.error (TransportError.misshapedMissing m)) ∧
    (∃ m, getTransport TransportsCfg.noTransports
        (fun _ =>
          Except.ok { defaultMember := none,
                      getSubgraphExecutor := some (JSVal.nonCallable 3) }) "k2"
      = Except.error (TransportError.misshapedNotFunction m)) :=
  ⟨c8_amended_misshaped_check_only_dynamic.1
      (TransportsCfg.mapping
        [("y", { defaultMember := none, getSubgraphExecutor := some (JSVal.nonCallable 7) })])
      (fun _ => Except.error "no module") "y"
      { defaultMember := none, getSubgraphExecutor := some (JSVal.nonCallable 7) } rfl,
    c8_amended_misshaped_check_only_dynamic.2.1 TransportsCfg.noTransports
      (fun _ => Except.ok { defaultMember := none, getSubgraphExecutor := none }) "k1"
      { defaultMember := none, getSubgraphExecutor := none } rfl rfl rfl,
    c8_amended_misshaped_check_only_dynamic.2.2 TransportsCfg.noTransports
      (fun _ =>
        Except.ok { defaultMember := none,
                    getSubgraphExecutor := some (JSVal.nonCallable 3) }) "k2"
      { defaultMember := none, getSubgraphExecutor := some (JSVal.nonCallable 3) } 3 rfl rfl rfl⟩

/-- C9: for a federated subgraph without inline `link` metadata whose
`{ _service { sdl } }` execution returns a non-empty errors list, the merger
fails with an aggregate error that carries exactly the underlying errors and
whose message names the subgraph; no stitching SDL is produced. -/
theorem c9_sdl_fetch_errors_abort_merge
    (name : String) (printedSchemaSdl : String)
    (sdlQueryResult : SdlExecutionResult) (fedToStitching : String → String)
    (herr : sdlQueryResult.errors ≠ []) :
    fetchStitchingSchema name false printedSchemaSdl sdlQueryResult fedToStitching
      = Except.error (MergeError.aggregate
          { errors := sdlQueryResult.errors, message := sdlFetchFailureMessage name }) ∧
    (∃ p, sdlFetchFailureMessage name = p ++ name) ∧
    (∀ sdl, fetchStitchingSchema name false printedSchemaSdl sdlQueryResult fedToStitching
      ≠ Except.ok sdl) := by
  have hlen : sdlQueryResult.errors.length ≠ 0 := by
    simpa [List.length_eq_zero] using herr
  have hmain : fetchStitchingSchema name false printedSchemaSdl sdlQueryResult fedToStitching
      = Except.error (MergeError.aggregate
          { errors := sdlQueryResult.errors, message := sdlFetchFailureMessage name }) := by
    simp [fetchStitchingSchema, hlen]
  refine ⟨hmain, ⟨"Failed on fetching Federated SDL for ", rfl⟩, ?_⟩
  intro sdl
  rw [hmain]
  intro h
  cases h

theorem executorWithHooks_trace_structure (hooks : List SubgraphHook)
    (executor : ExecutorModel) (executionRequest : ExecRequest) (hne : hooks ≠ []) :
    ∃ rest, ((executorWithHooks hooks executor executionRequest).trace
      = (runPreHooks hooks (attachInfo executionRequest) executor).trace
        ++ (TraceEvent.executorCall
              (foldEffects hooks (attachInfo executionRequest) executor).2.exId
              (foldEffects hooks (attachInfo executionRequest) executor).1.reqId :: rest)
      ∧ ∀ e ∈ rest, isExecutorCallEvent e = false) := by
  have hempty : hooks.isEmpty = false := by
    cases hooks with
    | nil => exact absurd rfl hne
    | cons a l => rfl
  have hreq := (runPreHooks_final hooks (attachInfo executionRequest) executor).1
  have hex := (runPreHooks_final hooks (attachInfo executionRequest) executor).2
  simp only [executorWithHooks, hempty, Bool.false_eq_true, if_false, ← hreq, ← hex]
  split
  · refine ⟨[], rfl, ?_⟩
    intro e he
    simp at he
  · split
    · refine ⟨(runDoneHooks (runPreHooks hooks (attachInfo executionRequest) executor).doneHooks
          ((runPreHooks hooks (attachInfo executionRequest) executor).finalExecutor.run
            (runPreHooks hooks (attachInfo executionRequest) executor).finalRequest)).trace,
        by simp [List.append_assoc], ?_⟩
      intro e he
      exact runDoneHooks_trace_no_executor_call _ _ e he
    · next items heq =>
      refine ⟨(runDoneHooks (runPreHooks hooks (attachInfo executionRequest) executor).doneHooks
          ((runPreHooks hooks (attachInfo executionRequest) executor).finalExecutor.run
            (runPreHooks hooks (attachInfo executionRequest) executor).finalRequest)).trace
          ++ (postProcessStream
              (runDoneHooks (runPreHooks hooks (attachInfo executionRequest) executor).doneHooks
                ((runPreHooks hooks (attachInfo executionRequest) executor).finalExecutor.run
                  (runPreHooks hooks (attachInfo
                    executionRequest) executor).finalRequest)).results items).2,
        by simp [List.append_assoc], ?_⟩
      intro e he
      rw [List.mem_append] at he
      rcases he with he | he
      · exact runDoneHooks_trace_no_executor_call _ _ e he
      · exact postProcessStream_trace_no_executor_call _ _ e he

/-- C3: a request or executor replacement made by a pre-hook through
`setExecutionRequest` / `setExecutor` is visible to every later pre-hook and
to the final executor invocation: hook `i` receives exactly the request and
executor obtained by folding the effects of hooks `0..i-1` over the
(attached) incoming request and the original executor; exactly one executor
invocation occurs and it runs the fully folded executor on the fully folded
request; and when no done hooks were registered the caller receives
precisely that executor's result — so a pre-hook calling `setExecutor(fake)`
makes `fake` the invoked executor and the upstream executor is never
invoked. -/
theorem c3_hook_mutations_visible_downstream
    (hooks : List SubgraphHook) (executor : ExecutorModel)
    (executionRequest : ExecRequest) (hne : hooks ≠ []) :
    (∀ i h, hooks[i]? = some h →
      (executorWithHooks hooks executor executionRequest).trace[i]?
        = some (TraceEvent.preHookCall h.hookId
            (foldEffects (hooks.take i) (attachInfo executionRequest) executor).1.reqId
            (foldEffects (hooks.take i) (attachInfo executionRequest) executor).2.exId)) ∧
    (executorWithHooks hooks executor executionRequest).trace.countP
      isExecutorCallEvent = 1 ∧
    (executorWithHooks hooks executor executionRequest).trace[hooks.length]?
      = some (TraceEvent.executorCall
          (foldEffects hooks (attachInfo executionRequest) executor).2.exId
          (foldEffects hooks (attachInfo executionRequest) executor).1.reqId) ∧
    ((runPreHooks hooks (attachInfo executionRequest) executor).doneHooks = [] →
      (executorWithHooks hooks executor executionRequest).result
        = (foldEffects hooks (attachInfo executionRequest) executor).2.run
            (foldEffects hooks (attachInfo executionRequest) executor).1) := by
  obtain ⟨rest, htr, hrest⟩ :=
    executorWithHooks_trace_structure hooks executor executionRequest hne
  have hlen : (runPreHooks hooks (attachInfo executionRequest) executor).trace.length
      = hooks.length := runPreHooks_trace_length hooks (attachInfo executionRequest) executor
  refine ⟨?_, ?_, ?_, ?_⟩
  · intro i h hi
    have hi' : i < hooks.length := (List.getElem?_eq_some.mp hi).choose
    rw [htr, List.getElem?_append_left (by rw [hlen]; exact hi')]
    exact runPreHooks_trace_getElem hooks (attachInfo executionRequest) executor i h hi
  · rw [htr, List.countP_append]
    have h1 : (runPreHooks hooks (attachInfo executionRequest) executor).trace.countP
        isExecutorCallEvent = 0 :=
      List.countP_eq_zero.mpr (by
        intro e he
        simp [runPreHooks_trace_no_executor_call hooks (attachInfo executionRequest)
          executor e he])
    have h2 : rest.countP isExecutorCallEvent = 0 :=
      List.countP_eq_zero.mpr (by intro e he; simp [hrest e he])
    rw [h1, List.countP_cons_of_pos _ _ (by rfl), h2]
  · rw [htr, List.getElem?_append_right (by rw [hlen]), hlen]
    simp
  · intro hdone
    have hempty : hooks.isEmpty = false := by
      cases hooks with
      | nil => exact absurd rfl hne
      | cons a l => rfl
    have hdempty : (runPreHooks hooks (attachInfo executionRequest)
        executor).doneHooks.isEmpty = true := by
      rw [hdone]; rfl
    simp only [executorWithHooks, hempty, Bool.false_eq_true, if_false, hdempty, if_true]
    rw [(runPreHooks_final hooks (attachInfo executionRequest) executor).1,
      (runPreHooks_final hooks (attachInfo executionRequest) executor).2]

/-- C3 witness: one pre-hook swaps in `fakeExecutor`; instantiating the
theorem shows the only executor call is `fakeExecutor` (id 2, never the
upstream id 1) on the attached request, and the caller receives
`fakeExecutor`'s result. -/
theorem c3_hook_mutations_visible_downstream_witness :
    (∀ i h, [swapExecutorHook][i]? = some h →
      (executorWithHooks [swapExecutorHook] upstreamExecutor sampleRequest).trace[i]?
        = some (TraceEvent.preHookCall h.hookId
            (foldEffects ([swapExecutorHook].take i) (attachInfo sampleRequest)
              upstreamExecutor).1.reqId
            (foldEffects ([swapExecutorHook].take i) (attachInfo sampleRequest)
              upstreamExecutor).2.exId)) ∧
    (executorWithHooks [swapExecutorHook] upstreamExecutor sampleRequest).trace.countP
      isExecutorCallEvent = 1 ∧
    (executorWithHooks [swapExecutorHook] upstreamExecutor
        sampleRequest).trace[[swapExecutorHook].length]?
      = some (TraceEvent.executorCall
          (foldEffects [swapExecutorHook] (attachInfo sampleRequest) upstreamExecutor).2.exId
          (foldEffects [swapExecutorHook] (attachInfo sampleRequest)
            upstreamExecutor).1.reqId) ∧
    ((runPreHooks [swapExecutorHook] (attachInfo sampleRequest)
        upstreamExecutor).doneHooks = [] →
      (executorWithHooks [swapExecutorHook] upstreamExecutor sampleRequest).result
        = (foldEffects [swapExecutorHook] (attachInfo sampleRequest) upstreamExecutor).2.run
            (foldEffects [swapExecutorHook] (attachInfo sampleRequest) upstreamExecutor).1) :=
  c3_hook_mutations_visible_downstream [swapExecutorHook] upstreamExecutor sampleRequest
    (List.cons_ne_nil _ _)

/-- C4: when the result of the wrapped executor is a stream, the pipeline
defers to the stream post-processing: with no registered `onNext`/`onEnd`
observers the stream (and trace) pass through unchanged; with at least one
observer, every yielded item is rewritten by the full `onNext` chain (in
registration order, recorded in the trace before that item's yield event),
and the `onEnd` observers run exactly once, in registration order, after the
last item. -/
theorem c4_stream_observers_wrap_or_pass_through :
    (∀ (hooks : List SubgraphHook) (executor : ExecutorModel)
      (executionRequest : ExecRequest) (items : List ResultData),
      hooks ≠ [] →
      (runPreHooks hooks (attachInfo executionRequest) executor).doneHooks ≠ [] →
      (runDoneHooks (runPreHooks hooks (attachInfo executionRequest) executor).doneHooks
          ((runPreHooks hooks (attachInfo executionRequest) executor).finalExecutor.run
            (runPreHooks hooks (attachInfo executionRequest) executor).finalRequest)).finalResult
        = ExecResult.stream items →
      (executorWithHooks hooks executor executionRequest).result
        = ExecResult.stream (postProcessStream
            (runDoneHooks (runPreHooks hooks (attachInfo executionRequest) executor).doneHooks
              ((runPreHooks hooks (attachInfo executionRequest) executor).finalExecutor.run
                (runPreHooks hooks (attachInfo executionRequest) executor).finalRequest)).results
            items).1) ∧
    (∀ (dResults : List DoneHookResult) (items : List ResultData),
      (collectObservers dResults).1 = [] → (collectObservers dResults).2 = [] →
      postProcessStream dResults items = (items, [])) ∧
    (∀ (dResults : List DoneHookResult) (items : List ResultData),
      ((collectObservers dResults).1 ≠ [] ∨ (collectObservers dResults).2 ≠ []) →
      (postProcessStream dResults items).1
        = items.map (rewriteChain (collectObservers dResults).1) ∧
      (postProcessStream dResults items).2
        = ((List.range' 0 items.length).map (fun j =>
            (collectObservers dResults).1.map (fun o => TraceEvent.onNextRun o.obsId j) ++
              [TraceEvent.itemYield j])).flatten
          ++ (collectObservers dResults).2.map TraceEvent.onEndRun) := by
  refine ⟨?_, ?_, ?_⟩
  · intro hooks executor executionRequest items hne hdne hstream
    have hempty : hooks.isEmpty = false := by
      cases hooks with
      | nil => exact absurd rfl hne
      | cons a l => rfl
    have hdempty : (runPreHooks hooks (attachInfo executionRequest)
        executor).doneHooks.isEmpty = false := by
      cases hd : (runPreHooks hooks (attachInfo executionRequest) executor).doneHooks with
      | nil => exact absurd hd hdne
      | cons a l => rfl
    simp only [executorWithHooks, hempty, hdempty, Bool.false_eq_true, if_false]
    rw [hstream]
  · intro dResults items h1 h2
    simp only [postProcessStream, h1, h2]
    split
    · rfl
    · rfl
  · intro dResults items hobs
    have hdne : dResults.isEmpty = false := by
      cases hd : dResults with
      | nil =>
        subst hd
        rcases hobs with h | h <;> exact absurd rfl h
      | cons a l => rfl
    have hcond : ((collectObservers dResults).1.isEmpty &&
        (collectObservers dResults).2.isEmpty) = false := by
      rcases hobs with h | h
      · cases hc : (collectObservers dResults).1 with
        | nil => exact absurd hc h
        | cons a l => rfl
      · cases hc : (collectObservers dResults).2 with
        | nil => exact absurd hc h
        | cons a l => simp
    simp only [postProcessStream, hdne, hcond, Bool.false_eq_true, if_false]
    exact ⟨mapStream_items _ _ _ _, mapStream_trace _ _ _ _⟩

/-- C4 witness: the subscription scenario — executor yields `1, 2, 3`, one
done hook registers an `onNext` observer multiplying by 10 and an `onEnd`
observer — instantiates the wrapping conjunct and the mapped-stream
conjunct; the empty done-result list instantiates the pass-through
conjunct. -/
theorem c4_stream_observers_wrap_or_pass_through_witness :
    ((executorWithHooks [observeStreamHook] streamExecutor sampleRequest).result
      = ExecResult.stream (postProcessStream
          (runDoneHooks
            (runPreHooks [observeStreamHook] (attachInfo sampleRequest)
              streamExecutor).doneHooks
            ((runPreHooks [observeStreamHook] (attachInfo sampleRequest)
                streamExecutor).finalExecutor.run
              (runPreHooks [observeStreamHook] (attachInfo sampleRequest)
                streamExecutor).finalRequest)).results
          [{ val := 1 }, { val := 2 }, { val := 3 }]).1) ∧
    postProcessStream [] [{ val := 1 }, { val := 2 }, { val := 3 }]
      = ([{ val := 1 }, { val := 2 }, { val := 3 }], []) ∧
    ((postProcessStream [timesTenDoneResult] [{ val := 1 }, { val := 2 }, { val := 3 }]).1
      = [{ val := 1 }, { val := 2 }, { val := 3 }].map
          (rewriteChain (collectObservers [timesTenDoneResult]).1) ∧
    (postProcessStream [timesTenDoneResult] [{ val := 1 }, { val := 2 }, { val := 3 }]).2
      = ((List.range' 0 ([{ val := 1 }, { val := 2 }, { val := 3 }] :
            List ResultData).length).map (fun j =>
          (collectObservers [timesTenDoneResult]).1.map
            (fun o => TraceEvent.onNextRun o.obsId j) ++
            [TraceEvent.itemYield j])).flatten
        ++ (collectObservers [timesTenDoneResult]).2.map TraceEvent.onEndRun) :=
  ⟨c4_stream_observers_wrap_or_pass_through.1 [observeStreamHook] streamExecutor
      sampleRequest [{ val := 1 }, { val := 2 }, { val := 3 }]
      (List.cons_ne_nil _ _)
      (by
        intro h
        exact absurd (congrArg List.length h) (by decide))
      rfl,
    c4_stream_observers_wrap_or_pass_through.2.1 [] [{ val := 1 }, { val := 2 }, { val := 3 }]
      rfl rfl,
    c4_stream_observers_wrap_or_pass_through.2.2 [timesTenDoneResult]
      [{ val := 1 }, { val := 2 }, { val := 3 }]
      (Or.inl (by
        intro h
        exact absurd (congrArg List.length h) (by decide)))⟩

/-- C10: the wrapper mutates the incoming execution request before anything
else (the empty-hook short circuit included): afterwards the request's
`info` is present — created when it was absent, preserved otherwise — and
its `executionRequest` field references the request itself (modelled by the
request's id). -/
theorem c10_execution_request_info_attached (hooks : List SubgraphHook)
    (executor : ExecutorModel) (executionRequest : ExecRequest) :
    (executorWithHooks hooks executor executionRequest).finalIncomingRequest
      = attachInfo executionRequest ∧
    (executorWithHooks hooks executor executionRequest).finalIncomingRequest.info
      = some { executionRequest := some executionRequest.reqId
               fieldName := (executionRequest.info.getD
                 { executionRequest := none, fieldName := "" }).fieldName } ∧
    (executorWithHooks hooks executor executionRequest).finalIncomingRequest.info.isSome
      = true := by
  have hfin : (executorWithHooks hooks executor executionRequest).finalIncomingRequest
      = attachInfo executionRequest := by
    unfold executorWithHooks
    split
    · rfl
    · simp only []
      split
      · rfl
      · split <;> rfl
  refine ⟨hfin, ?_, ?_⟩ <;> rw [hfin] <;> simp [attachInfo]

/-- C9 witness: subgraph `"users"`, a result carrying one error. -/
theorem c9_sdl_fetch_errors_abort_merge_witness :
    (fetchStitchingSchema "users" false "type Query"
        { errors := ["boom"], serviceSdl := none } (fun s => s)
      = Except.error (MergeError.aggregate
          { errors := ["boom"], message := sdlFetchFailureMessage "users" }) ∧
    (∃ p, sdlFetchFailureMessage "users" = p ++ "users") ∧
    (∀ sdl, fetchStitchingSchema "users" false "type Query"
        { errors := ["boom"], serviceSdl := none } (fun s => s)
      ≠ Except.ok sdl)) :=
  c9_sdl_fetch_errors_abort_merge "users" "type Query"
    { errors := ["boom"], serviceSdl := none } (fun s => s) (by decide)

end FusionRuntime

